import Mathlib

/-!
A shallow embedding of the coffee-shop backend
(`src/projects/03_coffee_shop_full_stack/starter_code/backend/src/api.py`)
together with the parts of the system that the routes use: the Drink model
(`database/models.py`, modelled from the spec) and the authorization gate
(`auth/auth.py`, modelled from the spec).  All definitions are executable.
-/

/-- Python/JSON values as they flow through the handlers: JSON request
bodies, the values stored in Drink columns, and JSON response bodies. -/
inductive Json where
  | null : Json
  | bool (b : Bool) : Json
  | int (m : Int) : Json
  | str (s : String) : Json
  | arr (xs : List Json) : Json
  | obj (kvs : List (String × Json)) : Json
  deriving Repr

/-- Python truthiness (`if not data`): None, False, 0, empty string,
empty list and empty dict are falsy; everything else is truthy. -/
def truthy : Json → Bool
  | .null => false
  | .bool b => b
  | .int m => m != 0
  | .str s => !s.isEmpty
  | .arr xs => !xs.isEmpty
  | .obj kvs => !kvs.isEmpty

/-- `v is None` in Python: our `Json.null` plays the role of Python's
`None` (JSON `null` deserializes to `None`). -/
def Json.isNull : Json → Bool
  | .null => true
  | _ => false

/-- `data.get(k, None)` on a parsed JSON object: the value under the first
occurrence of the key, or null when the key is absent. -/
def jsonGet (kvs : List (String × Json)) (k : String) : Json :=
  match kvs.lookup k with
  | some v => v
  | none => Json.null

/-! ### Serialization: the model of `json.dumps` / `json.loads`

`json.dumps` turns a value into a string and `json.loads` parses it back.
The exact character format of the serialized text is observable nowhere in
the program (it only sits in a database column), so the embedding uses a
simple self-delimiting tagged encoding: what matters, and what is proved,
is that `loads` inverts `dumps` and that `dumps` always yields a string
value. -/

/-- Unary run used for length prefixes and integer magnitudes. -/
def unaryChars (n : Nat) : List Char := List.replicate n 'x'

/-- Encoding of a string: tag, unary length, separator, raw characters. -/
def serStrChars (s : String) : List Char :=
  'c' :: unaryChars s.length ++ ':' :: s.data

mutual

/-- Serializer on values (the body of the `json.dumps` model). -/
def ser : Json → List Char
  | .null => ['n']
  | .bool true => ['t']
  | .bool false => ['f']
  | .int m => 'i' :: (if m < 0 then '-' else '+') :: unaryChars m.natAbs ++ [';']
  | .str s => serStrChars s
  | .arr xs => '[' :: serArr xs ++ [']']
  | .obj kvs => '{' :: serObj kvs ++ ['}']

/-- Serializer on array elements (concatenated; elements self-delimit). -/
def serArr : List Json → List Char
  | [] => []
  | x :: xs => ser x ++ serArr xs

/-- Serializer on object entries (key encoding followed by value). -/
def serObj : List (String × Json) → List Char
  | [] => []
  | (k, v) :: kvs => serStrChars k ++ ser v ++ serObj kvs

end

/-- `json.dumps`: serializing any value yields a string value. -/
def dumps (v : Json) : Json := Json.str (String.mk (ser v))

/-- Reads a unary run of marker characters, returning its length and the
remaining input. -/
def readUnary : List Char → Nat × List Char
  | 'x' :: r =>
    let p := readUnary r
    (p.1 + 1, p.2)
  | l => (0, l)

/-- Decodes one string encoded by `serStrChars`, returning it and the
remaining input. -/
def readStr : List Char → Option (String × List Char)
  | 'c' :: r =>
    (match readUnary r with
     | (n, ':' :: r') =>
       if n ≤ r'.length then some (String.mk (r'.take n), r'.drop n) else none
     | _ => none)
  | _ => none

mutual

/-- Fuel-indexed decoder for one value (the body of the `json.loads`
model). -/
def readVal : Nat → List Char → Option (Json × List Char)
  | 0, _ => none
  | _ + 1, 'n' :: r => some (.null, r)
  | _ + 1, 't' :: r => some (.bool true, r)
  | _ + 1, 'f' :: r => some (.bool false, r)
  | _ + 1, 'i' :: sgn :: r =>
    (match readUnary r with
     | (n, ';' :: r') =>
       if sgn = '-' then some (.int (-(n : Int)), r')
       else if sgn = '+' then some (.int (n : Int), r')
       else none
     | _ => none)
  | fuel + 1, '[' :: r => (readArr fuel r).map (fun p => (Json.arr p.1, p.2))
  | fuel + 1, '{' :: r => (readObj fuel r).map (fun p => (Json.obj p.1, p.2))
  | _ + 1, l => (readStr l).map (fun p => (Json.str p.1, p.2))

/-- Fuel-indexed decoder for array elements up to the closing bracket. -/
def readArr : Nat → List Char → Option (List Json × List Char)
  | 0, _ => none
  | _ + 1, ']' :: r => some ([], r)
  | fuel + 1, l =>
    (readVal fuel l).bind (fun vr =>
      (readArr fuel vr.2).map (fun p => (vr.1 :: p.1, p.2)))

/-- Fuel-indexed decoder for object entries up to the closing brace. -/
def readObj : Nat → List Char → Option (List (String × Json) × List Char)
  | 0, _ => none
  | _ + 1, '}' :: r => some ([], r)
  | fuel + 1, l =>
    (readStr l).bind (fun kr =>
      (readVal fuel kr.2).bind (fun vr =>
        (readObj fuel vr.2).map (fun p => ((kr.1, vr.1) :: p.1, p.2))))

end

/-- `json.loads`: defined on string values only (Python raises a
`TypeError` on anything else, modelled as `none`); the whole string must
be consumed.  The fuel is ample: every decoding step consumes input. -/
def loads : Json → Option Json
  | .str s =>
    (match readVal (s.data.length + 10) s.data with
     | some (v, []) => some v
     | _ => none)
  | _ => none

/-- A well-formed recipe ingredient entry, as the spec's data model gives
it: `{color, name, parts}` with string color and name and integer parts. -/
def isIngredient : Json → Bool
  | .obj [("color", .str _), ("name", .str _), ("parts", .int _)] => true
  | _ => false

/-- A well-formed recipe: a sequence of ingredient entries. -/
def isValidRecipe : Json → Bool
  | .arr xs => xs.all isIngredient
  | _ => false

/-! ### The Drink model

`database/models.py` is not part of the source tree (only `api.py` is), so
the model below is taken from the spec. -/

/-- Modelled from the spec: a row of the drinks table — `id` (integer,
system-assigned, unique), `title` (string, required, unique), `recipe`
(structured value stored as serialized text).  The column contents are
`Json` values because the handlers store whatever Python value reaches
them. -/
structure Drink where
  id : Nat
  title : Json
  recipe : Json
  deriving Repr

/-- Modelled from the spec: `long()` — `{id, title, recipe}` where the
recipe field is the deserialized structured value (`json.loads` of the
stored text; a load failure is a raised exception, modelled as `none`). -/
def Drink.long (d : Drink) : Option Json :=
  match loads d.recipe with
  | some r => some (.obj [("id", .int d.id), ("title", d.title), ("recipe", r)])
  | none => none

/-- The persistent store: the list of rows of the drinks table. -/
abbrev DB := List Drink

/-- Next system-assigned id (autoincrement): one past the maximum. -/
def nextId (db : DB) : Nat := (db.map Drink.id).foldr max 0 + 1

/-- Equality test used by the unique constraint on the title column: only
string titles can collide (SQL NULL never violates uniqueness). -/
def titleEq : Json → Json → Bool
  | .str a, .str b => a == b
  | _, _ => false

/-- Modelled from the spec: `Drink.insert` — appends a fresh row with a
system-assigned id; a missing (null) title or a duplicate title violates
the column constraints and raises, modelled as `none`. -/
def Drink.insert (db : DB) (title recipe : Json) : Option (DB × Nat) :=
  if title.isNull || db.any (fun d => titleEq d.title title) then none
  else
    let i := nextId db
    some (db ++ [⟨i, title, recipe⟩], i)

/-! ### The authorization gate

`auth/auth.py` is not part of the source tree, so the gate is modelled
from the spec (section 4): header extraction, token verification and the
permission check each fail with a typed error kind that propagates
unmodified out of the guard.  Cryptographic token verification is beyond
the embedding, so the verifier is a parameter of every guarded endpoint. -/

/-- Modelled from the spec: the kinds of typed authorization errors. -/
inductive AuthErrorKind where
  | authHeaderMissing : AuthErrorKind
  | authHeaderMalformed : AuthErrorKind
  | invalidHeader : AuthErrorKind
  | invalidClaims : AuthErrorKind
  | unauthorized : AuthErrorKind
  deriving Repr, DecidableEq

/-- Modelled from the spec: a verified token claim set; only the
permissions matter to the gate (`none` = no permissions field at all). -/
structure ClaimSet where
  permissions : Option (List String)
  deriving Repr

/-- The outcome of verifying one bearer token: a claim set or a typed
error.  A `Verifier` stands for `verify_decode_jwt` (signature, issuer,
audience and expiry checks against remotely fetched keys). -/
abbrev Verifier := String → Except AuthErrorKind ClaimSet

/-- An incoming HTTP request: the raw `Authorization` header when present
and the request body (absent, or the parsed JSON value). -/
structure Request where
  authHeader : Option String
  body : Option Json

/-- Splitting a header at single spaces, keeping empty parts, as Python's
`split(' ')` does. -/
def splitSpaces : List Char → List (List Char)
  | [] => [[]]
  | ' ' :: r => [] :: splitSpaces r
  | c :: r =>
    match splitSpaces r with
    | w :: ws => (c :: w) :: ws
    | [] => [[c]]

/-- Modelled from the spec: header extraction — missing header, then the
two-space-separated-parts shape with a Bearer prefix. -/
def get_token_auth_header (req : Request) : Except AuthErrorKind String :=
  match req.authHeader with
  | none => .error .authHeaderMissing
  | some h =>
    match (splitSpaces h.data).map String.mk with
    | [p, t] => if p == "Bearer" then .ok t else .error .authHeaderMalformed
    | _ => .error .authHeaderMalformed

/-- Modelled from the spec: the permission membership check — no
permissions field is an invalid-claims error, a missing permission an
unauthorized error. -/
def check_permissions (required : String) (claims : ClaimSet) : Except AuthErrorKind Unit :=
  match claims.permissions with
  | none => .error .invalidClaims
  | some ps => if ps.contains required then .ok () else .error .unauthorized

/-- Modelled from the spec: the guard composed by the `requires_auth`
decorator — extract the header token, verify it, check the permission,
and hand the claim set to the wrapped handler; any error propagates. -/
def requires_auth (required : String) (verify : Verifier) (req : Request) :
    Except AuthErrorKind ClaimSet := do
  let tok ← get_token_auth_header req
  let claims ← verify tok
  let _ ← check_permissions required claims
  pure claims

/-! ### Responses and the error boundary (transcribed from `api.py`) -/

/-- An HTTP response: status code and JSON body; `none` stands for a
framework-generated non-JSON body (default error pages, 500 fallbacks). -/
structure Response where
  status : Nat
  body : Option Json
  deriving Repr

/-- What a view function produced: a `jsonify` 200 response, an
`abort(code)`, a fall-off-the-end `return None`, or an uncaught ordinary
exception. -/
inductive HandlerOut where
  | json (v : Json) : HandlerOut
  | abort (code : Nat) : HandlerOut
  | noneReturn : HandlerOut
  | exn : HandlerOut
  deriving Repr

/-- The `{success:false, error, message}` error body shape of `api.py`. -/
def errBody (code : Int) (msg : String) : Json :=
  .obj [("success", .bool false), ("error", .int code), ("message", .str msg)]

/-- The `@app.errorhandler` table of `api.py`: exactly the six registered
status codes and their fixed bodies; no other status has a handler. -/
def errorHandlerBody (code : Nat) : Option Json :=
  match code with
  | 422 => some (errBody 422 "unprocessable")
  | 404 => some (errBody 404 "resource not found")
  | 401 => some (errBody 401 "Unauthenticated")
  | 403 => some (errBody 403 "Unauthorized")
  | 400 => some (errBody 400 "Bad request")
  | 405 => some (errBody 405 "Method not allowed")
  | _ => none

/-- Turns a handler outcome into the HTTP response: 200 for `jsonify`
returns; `abort(code)` goes through the registered error handler when one
exists (otherwise the framework default body); a `None` return or an
uncaught exception is the framework's 500. -/
def dispatchHandler : HandlerOut → Response
  | .json v => ⟨200, some v⟩
  | .abort c => ⟨c, errorHandlerBody c⟩
  | .noneReturn => ⟨500, none⟩
  | .exn => ⟨500, none⟩

/-- The fate of a typed `AuthError` escaping the guard: `api.py` imports
`AuthError` but registers error handlers only for the six HTTP status
codes, none for the `AuthError` exception class, so the framework turns
the uncaught exception into a default 500 with a non-JSON body. -/
def authErrorResponse (_e : AuthErrorKind) : Response := ⟨500, none⟩

/-- Runs one guarded endpoint: the guard first, then the handler, then
the boundary translation, returning the new table state and the
response. -/
def runGuarded (required : String) (verify : Verifier) (req : Request)
    (handler : ClaimSet → DB × HandlerOut) (db : DB) : DB × Response :=
  match requires_auth required verify req with
  | .error e => (db, authErrorResponse e)
  | .ok cs =>
    let (db', out) := handler cs
    (db', dispatchHandler out)

/-! ### The route handlers, transcribed from `api.py` -/

/-- Insertion sort by id, the model of `Drink.query.order_by(Drink.id)`. -/
def insertById (d : Drink) : List Drink → List Drink
  | [] => [d]
  | x :: xs => if d.id ≤ x.id then d :: x :: xs else x :: insertById d xs

/-- Sorting the drinks table by id. -/
def sortById : List Drink → List Drink
  | [] => []
  | x :: xs => insertById x (sortById xs)

/-- The list comprehension `[drink.long() for drink in drinks]`: a raised
exception inside the comprehension aborts it, modelled as `none`. -/
def longs : List Drink → Option (List Json)
  | [] => some []
  | d :: ds =>
    match d.long, longs ds with
    | some l, some ls => some (l :: ls)
    | _, _ => none

/-- `get_drink_details` (`api.py` lines 48–59): all drinks ordered by id
in long form under `{success, drinks}`. -/
def get_drink_details (db : DB) : HandlerOut :=
  match longs (sortById db) with
  | some ls => .json (.obj [("success", .bool true), ("drinks", .arr ls)])
  | none => .exn

/-- `add_drinks` (`api.py` lines 69–86): guarded on `request.data` being
non-empty; extracts title and recipe, dumps a non-None recipe, inserts,
re-queries the row by its id and answers with its long form.  With an
empty body the function falls off the end and returns `None`. -/
def add_drinks (db : DB) (body : Option Json) : DB × HandlerOut :=
  match body with
  | none => (db, .noneReturn)
  | some data =>
    match data with
    | .obj kvs =>
      let title := jsonGet kvs "title"
      let recipe := jsonGet kvs "recipe"
      let recipe := if !recipe.isNull then dumps recipe else recipe
      match Drink.insert db title recipe with
      | none => (db, .exn)
      | some (db', i) =>
        match db'.find? (fun d => d.id == i) with
        | none => (db', .exn)
        | some new_drink =>
          match new_drink.long with
          | some l => (db', .json (.obj [("success", .bool true), ("drinks", .arr [l])]))
          | none => (db', .exn)
    | _ => (db, .exn)

/-- `update_drink` (`api.py` lines 98–128): 409 on a falsy body; extracts
title and recipe and dumps a non-None recipe; 404 when the id is absent;
assigns only the provided fields — the recipe, already dumped once, is
dumped a second time on assignment (line 121), exactly as in the source —
and answers with the updated row's long form. -/
def update_drink (db : DB) (body : Option Json) (drink_id : Nat) : DB × HandlerOut :=
  if !truthy (body.getD Json.null) then (db, .abort 409)
  else
    match body.getD Json.null with
    | .obj kvs =>
      let title := jsonGet kvs "title"
      let recipe := jsonGet kvs "recipe"
      let recipe := if !recipe.isNull then dumps recipe else recipe
      match db.find? (fun d => d.id == drink_id) with
      | none => (db, .abort 404)
      | some drink =>
        let drink' : Drink :=
          { id := drink.id
            title := if !title.isNull then title else drink.title
            recipe := if !recipe.isNull then dumps recipe else drink.recipe }
        let db' := db.map (fun d => if d.id == drink_id then drink' else d)
        match drink'.long with
        | some l => (db', .json (.obj [("success", .bool true), ("drinks", .arr [l])]))
        | none => (db', .exn)
    | _ => (db, .exn)

/-- `delete_drink` (`api.py` lines 139–153): 404 when the id is absent,
otherwise removes the row and answers `{success, delete:id}`. -/
def delete_drink (db : DB) (drink_id : Nat) : DB × HandlerOut :=
  match db.find? (fun d => d.id == drink_id) with
  | none => (db, .abort 404)
  | some _ =>
    (db.eraseP (fun d => d.id == drink_id),
     .json (.obj [("success", .bool true), ("delete", .int drink_id)]))

/-! ### The four protected endpoints, guard included -/

/-- `GET /drinks-detail`. -/
def app_get_drinks_detail (verify : Verifier) (db : DB) (req : Request) : DB × Response :=
  runGuarded "get:drinks-detail" verify req (fun _ => (db, get_drink_details db)) db

/-- `POST /drinks`. -/
def app_post_drinks (verify : Verifier) (db : DB) (req : Request) : DB × Response :=
  runGuarded "post:drinks" verify req (fun _ => add_drinks db req.body) db

/-- `PATCH /drinks/{id}`. -/
def app_patch_drink (verify : Verifier) (db : DB) (req : Request) (drink_id : Nat) :
    DB × Response :=
  runGuarded "patch:drinks" verify req (fun _ => update_drink db req.body drink_id) db

/-- `DELETE /drinks/{id}`. -/
def app_delete_drink (verify : Verifier) (db : DB) (req : Request) (drink_id : Nat) :
    DB × Response :=
  runGuarded "delete:drinks" verify req (fun _ => delete_drink db drink_id) db

/-! ### Concrete inputs used to exercise the endpoints -/

/-- The value of the recipe field `[{color:"white", name:"milk", parts:1}]`. -/
def milkRecipe : Json :=
  .arr [.obj [("color", .str "white"), ("name", .str "milk"), ("parts", .int 1)]]

/-- The claim set granted by `grantAll`. -/
def allClaims : ClaimSet :=
  ⟨some ["get:drinks-detail", "post:drinks", "patch:drinks", "delete:drinks"]⟩

/-- A verifier that accepts every token with all four permissions. -/
def grantAll : Verifier := fun _ => .ok allClaims

/-- A verifier that rejects every token (bad signature, expiry, ...). -/
def rejectAll : Verifier := fun _ => .error .invalidClaims

/-- A one-row table: drink 1, titled water, with a stored empty recipe. -/
def db0 : DB := [⟨1, .str "water", dumps (Json.arr [])⟩]

/-- A PATCH request carrying only a new recipe. -/
def reqMilkPatch : Request := ⟨some "Bearer token", some (.obj [("recipe", milkRecipe)])⟩

/-- A request whose JSON body is the empty object, which is falsy. -/
def reqEmpty : Request := ⟨some "Bearer token", some (.obj [])⟩

/-- A request with a bearer token and no body at all. -/
def reqBare : Request := ⟨some "Bearer token", none⟩

/-- A POST request creating a Latte with the milk recipe. -/
def reqLatte : Request :=
  ⟨some "Bearer token", some (.obj [("title", .str "Latte"), ("recipe", milkRecipe)])⟩

/-- The recipe field of the first drink of a `{success, drinks}` response
body, when the body has that shape. -/
def respDrinkRecipe (r : Response) : Option Json :=
  match r.body with
  | some (.obj (("success", _) :: ("drinks", .arr (d :: _)) :: _)) =>
    (match d with
     | .obj (("id", _) :: ("title", _) :: ("recipe", rec) :: _) => some rec
     | _ => none)
  | _ => none

/-- Discriminates string values, separating serialized text from the
structured value it encodes. -/
def isStrVal : Option Json → Bool
  | some (.str _) => true
  | _ => false

/-! ## Theorems

First the round-trip between the `json.dumps` and `json.loads` models on
well-formed recipes, then the claims. -/

theorem readUnary_replicate (n : Nat) (c : Char) (l : List Char) (h : c ≠ 'x') :
    readUnary (List.replicate n 'x' ++ c :: l) = (n, c :: l) := by
  induction n with
  | zero =>
    rw [List.replicate, List.nil_append, readUnary]
    intro r hr
    injection hr with h1 _
    exact h h1
  | succ k ih =>
    rw [List.replicate, List.cons_append, readUnary, ih]

theorem serStrChars_append (s : String) (l : List Char) :
    serStrChars s ++ l = 'c' :: (unaryChars s.length ++ ':' :: (s.data ++ l)) := by
  simp [serStrChars]

theorem readStr_ser (s : String) (rest : List Char) :
    readStr (serStrChars s ++ rest) = some (s, rest) := by
  rw [serStrChars_append, readStr, unaryChars, readUnary_replicate _ _ _ (by decide)]
  have hlen : s.length = s.data.length := rfl
  rw [hlen]
  show (if s.data.length ≤ (s.data ++ rest).length then
      some (String.mk ((s.data ++ rest).take s.data.length), (s.data ++ rest).drop s.data.length)
    else none) = some (s, rest)
  rw [List.take_left, List.drop_left, if_pos (by rw [List.length_append]; omega)]

theorem readVal_str (f : Nat) (s : String) (rest : List Char) :
    readVal (f + 1) (serStrChars s ++ rest) = some (.str s, rest) := by
  rw [serStrChars_append]
  show (readStr ('c' :: (unaryChars s.length ++ ':' :: (s.data ++ rest)))).map
      (fun p => (Json.str p.1, p.2)) = some (.str s, rest)
  rw [← serStrChars_append, readStr_ser]
  rfl

theorem readVal_int (f : Nat) (m : Int) (rest : List Char) :
    readVal (f + 1) (ser (.int m) ++ rest) = some (.int m, rest) := by
  have harr : ser (.int m) ++ rest =
      'i' :: (if m < 0 then '-' else '+') :: (unaryChars m.natAbs ++ ';' :: rest) := by
    simp [ser]
  rw [harr]
  by_cases hm : m < 0
  · rw [if_pos hm]
    show (match readUnary (unaryChars m.natAbs ++ ';' :: rest) with
          | (n, ';' :: r') =>
            if ('-' : Char) = '-' then some (Json.int (-(n : Int)), r')
            else if ('-' : Char) = '+' then some (Json.int (n : Int), r')
            else none
          | _ => none) = some (Json.int m, rest)
    rw [unaryChars, readUnary_replicate _ _ _ (by decide)]
    show (if ('-' : Char) = '-' then some (Json.int (-(m.natAbs : Int)), rest)
          else if ('-' : Char) = '+' then some (Json.int (m.natAbs : Int), rest)
          else none) = some (Json.int m, rest)
    rw [if_pos rfl]
    have he : (-(m.natAbs : Int)) = m := by omega
    rw [he]
  · rw [if_neg hm]
    show (match readUnary (unaryChars m.natAbs ++ ';' :: rest) with
          | (n, ';' :: r') =>
            if ('+' : Char) = '-' then some (Json.int (-(n : Int)), r')
            else if ('+' : Char) = '+' then some (Json.int (n : Int), r')
            else none
          | _ => none) = some (Json.int m, rest)
    rw [unaryChars, readUnary_replicate _ _ _ (by decide)]
    show (if ('+' : Char) = '-' then some (Json.int (-(m.natAbs : Int)), rest)
          else if ('+' : Char) = '+' then some (Json.int (m.natAbs : Int), rest)
          else none) = some (Json.int m, rest)
    rw [if_neg (by decide), if_pos rfl]
    have he : ((m.natAbs : Int)) = m := by omega
    rw [he]

theorem readObj_entry (g : Nat) (k : String) (l : List Char) :
    readObj (g + 1) (serStrChars k ++ l) =
      (readVal g l).bind (fun vr =>
        (readObj g vr.2).map (fun p => ((k, vr.1) :: p.1, p.2))) := by
  have step : readObj (g + 1) (serStrChars k ++ l) =
      (readStr (serStrChars k ++ l)).bind (fun kr =>
        (readVal g kr.2).bind (fun vr =>
          (readObj g vr.2).map (fun p => ((kr.1, vr.1) :: p.1, p.2)))) := by
    rw [serStrChars_append]
    rfl
  rw [step, readStr_ser]
  rfl

theorem ser_ingredient_append (c nm : String) (p : Int) (rest : List Char) :
    ser (.obj [("color", .str c), ("name", .str nm), ("parts", .int p)]) ++ rest =
      '{' :: (serStrChars "color" ++ (serStrChars c ++ (serStrChars "name" ++ (serStrChars nm ++
        (serStrChars "parts" ++ (ser (.int p) ++ '}' :: rest)))))) := by
  simp [ser, serObj, List.append_assoc]

theorem readVal_ingredient (f : Nat) (c nm : String) (p : Int) (rest : List Char) :
    readVal (f + 5) (ser (.obj [("color", .str c), ("name", .str nm), ("parts", .int p)]) ++ rest) =
      some (.obj [("color", .str c), ("name", .str nm), ("parts", .int p)], rest) := by
  rw [ser_ingredient_append]
  show (readObj (f + 4) (serStrChars "color" ++ (serStrChars c ++ (serStrChars "name" ++
          (serStrChars nm ++ (serStrChars "parts" ++ (ser (.int p) ++ '}' :: rest))))))).map
      (fun p' => (Json.obj p'.1, p'.2)) =
      some (.obj [("color", .str c), ("name", .str nm), ("parts", .int p)], rest)
  rw [show f + 4 = (f + 3) + 1 from rfl, readObj_entry (f + 3)]
  rw [show f + 3 = (f + 2) + 1 from rfl, readVal_str (f + 2)]
  simp only [Option.some_bind]
  rw [readObj_entry (f + 2)]
  rw [show f + 2 = (f + 1) + 1 from rfl, readVal_str (f + 1)]
  simp only [Option.some_bind]
  rw [readObj_entry (f + 1)]
  rw [readVal_int f]
  simp only [Option.some_bind]
  rw [show readObj (f + 1) ('}' :: rest) = some ([], rest) from rfl]
  rfl

theorem ingredient_shape (v : Json) (h : isIngredient v = true) :
    ∃ c nm p, v = .obj [("color", .str c), ("name", .str nm), ("parts", .int p)] := by
  unfold isIngredient at h
  split at h
  · rename_i c nm p
    exact ⟨c, nm, p, rfl⟩
  · exact absurd h (by simp)

theorem readArr_obj_head (g : Nat) (kvs : List (String × Json)) (l : List Char) :
    readArr (g + 1) (ser (.obj kvs) ++ l) =
      (readVal g (ser (.obj kvs) ++ l)).bind (fun vr =>
        (readArr g vr.2).map (fun p => (vr.1 :: p.1, p.2))) := by
  have h : ser (.obj kvs) ++ l = '{' :: (serObj kvs ++ '}' :: l) := by
    simp [ser, List.append_assoc]
  rw [h]
  rfl

theorem readArr_ingredients (xs : List Json) (h : xs.all isIngredient = true) :
    ∀ (f : Nat) (rest : List Char),
      readArr (f + 6 * xs.length + 1) (serArr xs ++ ']' :: rest) = some (xs, rest) := by
  induction xs with
  | nil =>
    intro f rest
    rw [serArr, List.nil_append]
    rfl
  | cons x t ih =>
    intro f rest
    simp only [List.all_cons, Bool.and_eq_true] at h
    obtain ⟨hx, ht⟩ := h
    obtain ⟨c, nm, p, rfl⟩ := ingredient_shape x hx
    rw [serArr, List.append_assoc, List.length_cons]
    rw [show f + 6 * (t.length + 1) + 1 = (f + 6 * t.length + 6) + 1 from by ring]
    rw [readArr_obj_head (f + 6 * t.length + 6)]
    rw [show f + 6 * t.length + 6 = (f + 6 * t.length + 1) + 5 from by ring]
    rw [readVal_ingredient]
    simp only [Option.some_bind]
    rw [show (f + 6 * t.length + 1) + 5 = (f + 5) + 6 * t.length + 1 from by ring]
    rw [ih ht (f + 5) rest]
    rfl

theorem readVal_recipe (xs : List Json) (h : xs.all isIngredient = true)
    (f : Nat) (rest : List Char) :
    readVal (f + 6 * xs.length + 2) (ser (.arr xs) ++ rest) = some (.arr xs, rest) := by
  have harr : ser (.arr xs) ++ rest = '[' :: (serArr xs ++ ']' :: rest) := by
    simp [ser, List.append_assoc]
  rw [harr]
  show (readArr (f + 6 * xs.length + 1) (serArr xs ++ ']' :: rest)).map
      (fun p => (Json.arr p.1, p.2)) = some (.arr xs, rest)
  rw [readArr_ingredients xs h f rest]
  rfl

theorem six_mul_length_le (xs : List Json) (h : xs.all isIngredient = true) :
    6 * xs.length ≤ (serArr xs).length := by
  induction xs with
  | nil => simp [serArr]
  | cons x t ih =>
    simp only [List.all_cons, Bool.and_eq_true] at h
    obtain ⟨hx, ht⟩ := h
    obtain ⟨c, nm, p, rfl⟩ := ingredient_shape x hx
    rw [serArr, List.length_append, List.length_cons]
    have h1 : 6 ≤ (ser (.obj [("color", .str c), ("name", .str nm), ("parts", .int p)])).length := by
      simp [ser, serObj, serStrChars, unaryChars]
      omega
    have h2 := ih ht
    omega

theorem loads_dumps (r : Json) (h : isValidRecipe r = true) : loads (dumps r) = some r := by
  obtain ⟨xs, rfl, hall⟩ : ∃ xs, r = .arr xs ∧ xs.all isIngredient = true := by
    unfold isValidRecipe at h
    split at h
    · rename_i xs
      exact ⟨xs, rfl, h⟩
    · exact absurd h (by simp)
  show (match readVal ((ser (.arr xs)).length + 10) (ser (.arr xs)) with
        | some (v, []) => some v
        | _ => none) = some (.arr xs)
  have hb := six_mul_length_le xs hall
  have hlen : (ser (.arr xs)).length = (serArr xs).length + 2 := by
    simp [ser]
  rw [show (ser (.arr xs)).length + 10 =
        ((ser (.arr xs)).length + 8 - 6 * xs.length) + 6 * xs.length + 2 from by omega]
  have hrt := readVal_recipe xs hall ((ser (.arr xs)).length + 8 - 6 * xs.length) []
  rw [List.append_nil] at hrt
  rw [hrt]

theorem long_of_dumps (i : Nat) (t r : Json) (h : isValidRecipe r = true) :
    Drink.long ⟨i, t, dumps r⟩ =
      some (.obj [("id", .int i), ("title", t), ("recipe", r)]) := by
  unfold Drink.long
  rw [loads_dumps r h]

theorem mem_insertById (d x : Drink) (l : List Drink) :
    x ∈ insertById d l ↔ x = d ∨ x ∈ l := by
  induction l with
  | nil => simp [insertById]
  | cons y ys ih =>
    rw [insertById]
    by_cases hle : d.id ≤ y.id
    · simp [hle]
    · simp only [hle, if_false, List.mem_cons, ih]
      tauto

theorem mem_sortById (x : Drink) (l : List Drink) : x ∈ sortById l ↔ x ∈ l := by
  induction l with
  | nil => simp [sortById]
  | cons y ys ih => simp [sortById, mem_insertById, ih]

theorem longs_spec (l : List Drink) (h : ∀ d ∈ l, (Drink.long d).isSome = true) :
    ∃ ls, longs l = some ls ∧ ∀ d ∈ l, ∀ j, Drink.long d = some j → j ∈ ls := by
  induction l with
  | nil => exact ⟨[], rfl, by simp⟩
  | cons d ds ih =>
    obtain ⟨j, hj⟩ := Option.isSome_iff_exists.mp (h d (by simp))
    obtain ⟨ls, hls, hmem⟩ := ih (fun x hx => h x (by simp [hx]))
    refine ⟨j :: ls, ?_, ?_⟩
    · rw [longs, hj, hls]
    · intro x hx j' hj'
      rcases List.mem_cons.mp hx with rfl | hx'
      · rw [hj'] at hj
        injection hj with hh
        simp [hh]
      · simp [hmem x hx' j' hj']


theorem update_drink_empty_body (db : DB) (body : Option Json) (i : Nat)
    (hbody : truthy (body.getD Json.null) = false) :
    update_drink db body i = (db, .abort 409) := by
  simp [update_drink, hbody]

/-- Claim C1: the claim says a request without the Authorization header to
any protected endpoint is answered 401 with message "Unauthenticated".
On the code this fails: the guard's typed AuthError escapes, `api.py`
imports `AuthError` but registers no error handler for it (only for the
six HTTP status codes), so the framework answers 500 with a non-JSON
default body — for every verifier, table state, request body and id. -/
theorem C1_missing_auth_header_yields_500 (verify : Verifier) (db : DB)
    (body : Option Json) (i : Nat) :
    (app_get_drinks_detail verify db ⟨none, body⟩).2 = ⟨500, none⟩ ∧
    (app_post_drinks verify db ⟨none, body⟩).2 = ⟨500, none⟩ ∧
    (app_patch_drink verify db ⟨none, body⟩ i).2 = ⟨500, none⟩ ∧
    (app_delete_drink verify db ⟨none, body⟩ i).2 = ⟨500, none⟩ :=
  ⟨rfl, rfl, rfl, rfl⟩

/-- Claim C2: the claim says a PATCH carrying a recipe stores it so that
the 200 response's drink has the submitted structured recipe.  On the
code this fails: `update_drink` serializes the recipe twice (lines 110
and 121), so the response's recipe field is a string value — the
serialized text — and not the submitted structured value. -/
theorem C2_patch_recipe_double_serialized :
    (app_patch_drink grantAll db0 reqMilkPatch 1).2.status = 200 ∧
    isStrVal (respDrinkRecipe (app_patch_drink grantAll db0 reqMilkPatch 1).2) = true ∧
    respDrinkRecipe (app_patch_drink grantAll db0 reqMilkPatch 1).2 ≠ some milkRecipe := by
  refine ⟨rfl, rfl, fun hcontra => ?_⟩
  have hiso := congrArg isStrVal hcontra
  rw [show isStrVal (respDrinkRecipe (app_patch_drink grantAll db0 reqMilkPatch 1).2) = true
        from rfl] at hiso
  rw [show isStrVal (some milkRecipe) = false from rfl] at hiso
  exact Bool.noConfusion hiso

/-- Claim C3, counterexample: the claim says PATCH of an existing id with
an empty body is answered 409 regardless of token validity.  With an
invalid bearer token the guard fails first and the response is 500 (the
unhandled AuthError), not 409, although drink 1 exists. -/
theorem C3_counterexample :
    (db0.find? (fun d => d.id == 1)).isSome = true ∧
    (app_patch_drink rejectAll db0 reqEmpty 1).2.status = 500 ∧
    (app_patch_drink rejectAll db0 reqEmpty 1).2.status ≠ 409 :=
  ⟨rfl, rfl, by decide⟩

/-- Claim C3 as amended: for every PATCH request with an empty (falsy)
body whose token passes the authorization guard, where the id refers to
an existing drink, the response is 409 (with the framework's default
body: no 409 error handler is registered). -/
theorem C3_empty_body_409 (verify : Verifier) (db : DB) (req : Request) (i : Nat)
    (cs : ClaimSet)
    (hauth : requires_auth "patch:drinks" verify req = .ok cs)
    (hbody : truthy (req.body.getD Json.null) = false)
    (_hexists : (db.find? (fun d => d.id == i)).isSome = true) :
    (app_patch_drink verify db req i).2 = ⟨409, none⟩ := by
  unfold app_patch_drink runGuarded
  rw [hauth, update_drink_empty_body db req.body i hbody]
  rfl

theorem C3_empty_body_409_witness :
    (app_patch_drink grantAll db0 reqEmpty 1).2 = ⟨409, none⟩ :=
  C3_empty_body_409 grantAll db0 reqEmpty 1 allClaims rfl rfl rfl

/-- Claim C4: for every PATCH request that passes authorization with an
empty (falsy) body, the 409 check runs before the existence check: even
when no drink has the requested id the response is 409, not 404. -/
theorem C4_409_precedes_404 (verify : Verifier) (db : DB) (req : Request) (i : Nat)
    (cs : ClaimSet)
    (hauth : requires_auth "patch:drinks" verify req = .ok cs)
    (hbody : truthy (req.body.getD Json.null) = false)
    (_habsent : db.find? (fun d => d.id == i) = none) :
    (app_patch_drink verify db req i).2.status = 409 ∧
    (app_patch_drink verify db req i).2.status ≠ 404 := by
  have hr : (app_patch_drink verify db req i).2 = ⟨409, none⟩ := by
    unfold app_patch_drink runGuarded
    rw [hauth, update_drink_empty_body db req.body i hbody]
    rfl
  rw [hr]
  exact ⟨rfl, by decide⟩

theorem C4_409_precedes_404_witness :
    (app_patch_drink grantAll [] reqEmpty 7).2.status = 409 ∧
    (app_patch_drink grantAll [] reqEmpty 7).2.status ≠ 404 :=
  C4_409_precedes_404 grantAll [] reqEmpty 7 allClaims rfl rfl rfl

/-- Claim C5: for every DELETE request whose token passes the guard with
`delete:drinks`, a missing id gives 404 with body message "resource not
found", and an existing id gives 200 with `{success:true, delete:id}`. -/
theorem C5_delete_404_or_200 (verify : Verifier) (db : DB) (req : Request) (i : Nat)
    (cs : ClaimSet)
    (hauth : requires_auth "delete:drinks" verify req = .ok cs) :
    (db.find? (fun d => d.id == i) = none →
      (app_delete_drink verify db req i).2 = ⟨404, some (errBody 404 "resource not found")⟩) ∧
    (∀ d, db.find? (fun x => x.id == i) = some d →
      (app_delete_drink verify db req i).2 =
        ⟨200, some (.obj [("success", .bool true), ("delete", .int i)])⟩) := by
  unfold app_delete_drink runGuarded
  rw [hauth]
  constructor
  · intro hnone
    unfold delete_drink
    rw [hnone]
    rfl
  · intro d hd
    unfold delete_drink
    rw [hd]
    rfl

theorem C5_delete_404_or_200_witness :
    (app_delete_drink grantAll [] reqBare 1).2 =
      ⟨404, some (errBody 404 "resource not found")⟩ ∧
    (app_delete_drink grantAll db0 reqBare 1).2 =
      ⟨200, some (.obj [("success", .bool true), ("delete", .int 1)])⟩ :=
  ⟨(C5_delete_404_or_200 grantAll [] reqBare 1 allClaims rfl).1 rfl,
   (C5_delete_404_or_200 grantAll db0 reqBare 1 allClaims rfl).2
     ⟨1, .str "water", dumps (Json.arr [])⟩ rfl⟩

/-- Claim C9: every status code with a registered error handler (400,
401, 403, 404, 405, 422) is translated to a response whose JSON body is
`{success:false, error:code, message:string}` with the error field equal
to the response's status code. -/
theorem C9_error_body_shape (code : Nat) (hc : code ∈ [400, 401, 403, 404, 405, 422]) :
    ∃ msg, errorHandlerBody code = some (errBody code msg) ∧
      dispatchHandler (.abort code) = ⟨code, some (errBody code msg)⟩ := by
  fin_cases hc
  · exact ⟨"Bad request", rfl, rfl⟩
  · exact ⟨"Unauthenticated", rfl, rfl⟩
  · exact ⟨"Unauthorized", rfl, rfl⟩
  · exact ⟨"resource not found", rfl, rfl⟩
  · exact ⟨"Method not allowed", rfl, rfl⟩
  · exact ⟨"unprocessable", rfl, rfl⟩

theorem C9_error_body_shape_witness :
    ∃ msg, errorHandlerBody 404 = some (errBody 404 msg) ∧
      dispatchHandler (.abort 404) = ⟨404, some (errBody 404 msg)⟩ :=
  C9_error_body_shape 404 (by simp)

/-- Claim C10: a POST that passes authorization but has an empty request
body makes the handler fall off the end of the function (it returns
Python `None`), and the framework's answer is a 500 with a non-JSON
body — neither the documented success shape nor any documented error
body. -/
theorem C10_post_empty_body_returns_none (verify : Verifier) (db : DB) (req : Request)
    (cs : ClaimSet)
    (hauth : requires_auth "post:drinks" verify req = .ok cs)
    (hbody : req.body = none) :
    add_drinks db req.body = (db, .noneReturn) ∧
    app_post_drinks verify db req = (db, ⟨500, none⟩) := by
  constructor
  · rw [hbody]
    rfl
  · unfold app_post_drinks runGuarded
    rw [hauth, hbody]
    rfl

theorem C10_post_empty_body_returns_none_witness :
    add_drinks db0 reqBare.body = (db0, .noneReturn) ∧
    app_post_drinks grantAll db0 reqBare = (db0, ⟨500, none⟩) :=
  C10_post_empty_body_returns_none grantAll db0 reqBare allClaims rfl rfl

theorem app_patch_fst (verify : Verifier) (db : DB) (req : Request) (i : Nat) (cs : ClaimSet)
    (hauth : requires_auth "patch:drinks" verify req = .ok cs) :
    (app_patch_drink verify db req i).1 = (update_drink db req.body i).1 := by
  unfold app_patch_drink runGuarded
  rw [hauth]

theorem update_drink_frame (db : DB) (kvs : List (String × Json)) (i : Nat) (d : Drink)
    (htruthy : truthy (.obj kvs) = true)
    (hfound : db.find? (fun x => x.id == i) = some d) :
    ∀ x ∈ (update_drink db (some (.obj kvs)) i).1,
      (x.id = i →
        (kvs.lookup "title" = none → x.title = d.title) ∧
        (kvs.lookup "recipe" = none → x.recipe = d.recipe)) ∧
      (x.id ≠ i → x ∈ db) := by
  have hdi : d.id = i := by
    have := List.find?_some hfound
    simpa using this
  unfold update_drink
  simp only [Option.getD_some, htruthy, Bool.not_true, Bool.false_eq_true, if_false, hfound]
  intro x hx
  split at hx
  all_goals
    obtain ⟨y, hy, hyx⟩ := List.mem_map.mp hx
    by_cases hbeq : (y.id == i) = true
    · rw [if_pos hbeq] at hyx
      subst hyx
      refine ⟨fun _ => ⟨fun ht => ?_, fun hr => ?_⟩, fun hne => absurd hdi hne⟩
      · have h0 : jsonGet kvs "title" = Json.null := by simp [jsonGet, ht]
        rw [h0]
        rfl
      · have h0 : jsonGet kvs "recipe" = Json.null := by simp [jsonGet, hr]
        rw [h0]
        rfl
    · rw [if_neg hbeq] at hyx
      subst hyx
      refine ⟨fun hxi => absurd (by simp [hxi]) hbeq, fun _ => hy⟩

/-- Claim C6: for every PATCH that passes the guard with a truthy JSON
object body and an existing drink, each field (title, recipe) absent from
the request body keeps its prior stored value in the updated row, and
rows with other ids are untouched — only present fields are modified. -/
theorem C6_partial_update (verify : Verifier) (db : DB) (req : Request) (i : Nat)
    (cs : ClaimSet) (kvs : List (String × Json)) (d : Drink)
    (hauth : requires_auth "patch:drinks" verify req = .ok cs)
    (hbody : req.body = some (.obj kvs))
    (htruthy : truthy (.obj kvs) = true)
    (hfound : db.find? (fun x => x.id == i) = some d) :
    ∀ x ∈ (app_patch_drink verify db req i).1,
      (x.id = i →
        (kvs.lookup "title" = none → x.title = d.title) ∧
        (kvs.lookup "recipe" = none → x.recipe = d.recipe)) ∧
      (x.id ≠ i → x ∈ db) := by
  rw [app_patch_fst verify db req i cs hauth, hbody]
  exact update_drink_frame db kvs i d htruthy hfound

theorem C6_partial_update_witness :
    (⟨1, Json.str "water", dumps (dumps milkRecipe)⟩ : Drink).title
      = (⟨1, Json.str "water", dumps (Json.arr [])⟩ : Drink).title :=
  (((C6_partial_update grantAll db0 reqMilkPatch 1 allClaims
        [("recipe", milkRecipe)] ⟨1, .str "water", dumps (Json.arr [])⟩ rfl rfl rfl rfl)
      ⟨1, Json.str "water", dumps (dumps milkRecipe)⟩
      (List.mem_singleton_self _)).1 rfl).1 rfl

theorem update_drink_ids (db : DB) (body : Option Json) (i : Nat) :
    (update_drink db body i).1.map Drink.id = db.map Drink.id := by
  unfold update_drink
  split
  · rfl
  · split
    all_goals try rfl
    split
    · rfl
    · rename_i drink hfind
      have hdi : drink.id = i := by simpa using List.find?_some hfind
      dsimp only
      split
      all_goals
        dsimp only
        rw [List.map_map]
        apply List.map_congr_left
        intro y hy
        simp only [Function.comp_apply]
        by_cases hbeq : (y.id == i) = true
        · rw [if_pos hbeq]
          show drink.id = y.id
          have hyi : y.id = i := by simpa using hbeq
          rw [hdi, hyi]
        · rw [if_neg hbeq]

theorem insert_superset (db : DB) (t r : Json) (db2 : DB) (i2 : Nat)
    (h : Drink.insert db t r = some (db2, i2)) : ∀ d ∈ db, d ∈ db2 := by
  unfold Drink.insert at h
  split at h
  · cases h
  · injection h with h1
    have h2 := congrArg Prod.fst h1
    simp only [Prod.fst] at h2
    rw [← h2]
    intro d hd
    exact List.mem_append_left _ hd

theorem add_drinks_superset (db : DB) (body : Option Json) :
    ∀ d ∈ db, d ∈ (add_drinks db body).1 := by
  intro d hd
  unfold add_drinks
  split
  · exact hd
  · split
    all_goals try exact hd
    dsimp only
    split
    · exact hd
    · rename_i db2 i2 hins
      split
      · exact insert_superset db _ _ db2 i2 hins d hd
      · split
        · exact insert_superset db _ _ db2 i2 hins d hd
        · exact insert_superset db _ _ db2 i2 hins d hd

theorem delete_drink_subset (db : DB) (i : Nat) :
    ∀ d ∈ (delete_drink db i).1, d ∈ db := by
  unfold delete_drink
  split
  · exact fun d hd => hd
  · exact fun d hd => List.mem_of_mem_eraseP hd

/-- Claim C7: a Drink's id is immutable — PATCH preserves the table's id
column exactly (so a successful update keeps the addressed drink's id),
POST keeps every pre-existing row, and DELETE leaves only rows that were
already present, for every verifier, table state, request and id. -/
theorem C7_id_immutable (verify : Verifier) (db : DB) (req : Request) (i : Nat) :
    (app_patch_drink verify db req i).1.map Drink.id = db.map Drink.id ∧
    (∀ d ∈ db, d ∈ (app_post_drinks verify db req).1) ∧
    (∀ d ∈ (app_delete_drink verify db req i).1, d ∈ db) := by
  refine ⟨?_, ?_, ?_⟩
  · unfold app_patch_drink runGuarded
    cases requires_auth "patch:drinks" verify req with
    | error e => rfl
    | ok cs => exact update_drink_ids db req.body i
  · unfold app_post_drinks runGuarded
    cases requires_auth "post:drinks" verify req with
    | error e => exact fun d hd => hd
    | ok cs => exact add_drinks_superset db req.body
  · unfold app_delete_drink runGuarded
    cases requires_auth "delete:drinks" verify req with
    | error e => exact fun d hd => hd
    | ok cs => exact delete_drink_subset db i

theorem C7_id_immutable_witness :
    (app_patch_drink grantAll db0 reqMilkPatch 1).1.map Drink.id = db0.map Drink.id ∧
    (⟨1, .str "water", dumps (Json.arr [])⟩ : Drink) ∈ (app_post_drinks grantAll db0 reqLatte).1 :=
  ⟨(C7_id_immutable grantAll db0 reqMilkPatch 1).1,
   (C7_id_immutable grantAll db0 reqLatte 1).2.1 _ (List.mem_singleton_self _)⟩

theorem validRecipe_shape (r : Json) (h : isValidRecipe r = true) :
    ∃ xs, r = .arr xs ∧ xs.all isIngredient = true := by
  unfold isValidRecipe at h
  split at h
  · rename_i xs
    exact ⟨xs, rfl, h⟩
  · exact absurd h (by simp)

theorem add_drinks_fst_of_insert (db : DB) (kvs : List (String × Json)) (db2 : DB) (i2 : Nat)
    (hins : Drink.insert db (jsonGet kvs "title")
        (if (!(jsonGet kvs "recipe").isNull) = true then dumps (jsonGet kvs "recipe")
         else jsonGet kvs "recipe") = some (db2, i2)) :
    (add_drinks db (some (.obj kvs))).1 = db2 := by
  unfold add_drinks
  dsimp only
  split
  · rename_i heq
    rw [hins] at heq
    cases heq
  · rename_i db' i' hins'
    rw [hins] at hins'
    injection hins' with h
    have h2 : db2 = db' := congrArg Prod.fst h
    split
    · exact h2.symm
    · split
      · exact h2.symm
      · exact h2.symm

/-- Claim C8: round-trip — after a POST that passes the guard with a
well-formed title and recipe (fresh title, well-formed pre-existing
rows), a GET /drinks-detail that passes the guard answers 200 with a
drinks list containing the new drink's long form, whose title and
structured recipe equal the submitted values. -/
theorem C8_create_then_detail_roundtrip (verify : Verifier) (db : DB) (req req2 : Request)
    (cs cs2 : ClaimSet) (title : String) (recipe : Json)
    (hauth : requires_auth "post:drinks" verify req = .ok cs)
    (hbody : req.body = some (.obj [("title", .str title), ("recipe", recipe)]))
    (hrec : isValidRecipe recipe = true)
    (hfresh : db.all (fun d => !titleEq d.title (.str title)) = true)
    (hwf : ∀ d ∈ db, (Drink.long d).isSome = true)
    (hauth2 : requires_auth "get:drinks-detail" verify req2 = .ok cs2) :
    (app_get_drinks_detail verify (app_post_drinks verify db req).1 req2).2.status = 200 ∧
    ∃ ls i,
      (app_get_drinks_detail verify (app_post_drinks verify db req).1 req2).2.body =
        some (.obj [("success", .bool true), ("drinks", .arr ls)]) ∧
      Json.obj [("id", .int i), ("title", .str title), ("recipe", recipe)] ∈ ls := by
  obtain ⟨xs, rfl, hall⟩ := validRecipe_shape recipe hrec
  have hT : jsonGet [("title", Json.str title), ("recipe", Json.arr xs)] "title"
      = Json.str title := rfl
  have hR : jsonGet [("title", Json.str title), ("recipe", Json.arr xs)] "recipe"
      = Json.arr xs := rfl
  have hany : db.any (fun d => titleEq d.title (Json.str title)) = false := by
    rw [List.any_eq_false]
    intro x hx
    have hb := List.all_eq_true.mp hfresh x hx
    simp only [Bool.not_eq_true'] at hb
    simp [hb]
  have hins : Drink.insert db
      (jsonGet [("title", Json.str title), ("recipe", Json.arr xs)] "title")
      (if (!(jsonGet [("title", Json.str title), ("recipe", Json.arr xs)] "recipe").isNull) = true
       then dumps (jsonGet [("title", Json.str title), ("recipe", Json.arr xs)] "recipe")
       else jsonGet [("title", Json.str title), ("recipe", Json.arr xs)] "recipe")
      = some (db ++ [⟨nextId db, Json.str title, dumps (Json.arr xs)⟩], nextId db) := by
    rw [hT, hR]
    rw [show (!(Json.arr xs).isNull) = true from rfl, if_pos rfl]
    unfold Drink.insert
    rw [show (Json.str title).isNull = false from rfl, hany]
    rfl
  have hpost : (app_post_drinks verify db req).1
      = db ++ [⟨nextId db, Json.str title, dumps (Json.arr xs)⟩] := by
    have h1 : (app_post_drinks verify db req).1 = (add_drinks db req.body).1 := by
      unfold app_post_drinks runGuarded
      rw [hauth]
    rw [h1, hbody]
    exact add_drinks_fst_of_insert db _ _ _ hins
  rw [hpost]
  have hvalid : isValidRecipe (Json.arr xs) = true := by
    unfold isValidRecipe
    exact hall
  have hlong := long_of_dumps (nextId db) (Json.str title) (Json.arr xs) hvalid
  have hwf2 : ∀ d ∈ db ++ [(⟨nextId db, Json.str title, dumps (Json.arr xs)⟩ : Drink)],
      (Drink.long d).isSome = true := by
    intro d hd
    rcases List.mem_append.mp hd with h | h
    · exact hwf d h
    · rw [List.mem_singleton.mp h, hlong]
      rfl
  obtain ⟨ls, hls, hmem⟩ :=
    longs_spec (sortById (db ++ [⟨nextId db, Json.str title, dumps (Json.arr xs)⟩]))
      (fun d hd => hwf2 d ((mem_sortById d _).mp hd))
  have hnew : (⟨nextId db, Json.str title, dumps (Json.arr xs)⟩ : Drink)
      ∈ sortById (db ++ [⟨nextId db, Json.str title, dumps (Json.arr xs)⟩]) :=
    (mem_sortById _ _).mpr (List.mem_append_right _ (List.mem_singleton_self _))
  have hj := hmem _ hnew _ hlong
  have hget : (app_get_drinks_detail verify
        (db ++ [⟨nextId db, Json.str title, dumps (Json.arr xs)⟩]) req2).2
      = dispatchHandler (get_drink_details
          (db ++ [⟨nextId db, Json.str title, dumps (Json.arr xs)⟩])) := by
    unfold app_get_drinks_detail runGuarded
    rw [hauth2]
  rw [hget]
  unfold get_drink_details
  rw [hls]
  exact ⟨rfl, ls, nextId db, rfl, hj⟩

theorem C8_create_then_detail_roundtrip_witness :
    (app_get_drinks_detail grantAll (app_post_drinks grantAll [] reqLatte).1 reqBare).2.status
      = 200 ∧
    ∃ ls i,
      (app_get_drinks_detail grantAll (app_post_drinks grantAll [] reqLatte).1 reqBare).2.body =
        some (.obj [("success", .bool true), ("drinks", .arr ls)]) ∧
      Json.obj [("id", .int i), ("title", .str "Latte"), ("recipe", milkRecipe)] ∈ ls :=
  C8_create_then_detail_roundtrip grantAll [] reqLatte reqBare allClaims allClaims
    "Latte" milkRecipe rfl rfl rfl rfl (by simp) rfl
